import Mathlib

/-!
# Verification of the filedb ingestion / retrieval pipeline

Shallow embedding of the core of the `filedb` service:

* the chunker (`src/services/chunking.ts`: `chunkFile`, `createMetadata`,
  `reassembleFile`, `validateFileIntegrity`),
* the upload service admission path (`src/services/upload.ts`:
  `initiateUpload`, `isValidFileType`, `getFile`) together with the
  quota accountant (`src/services/quota.ts`),
* the in-memory storage backend (`src/storage/db-chain.ts`),
* the ledger storage payload builder and chunk query
  (`src/storage/arkiv-storage.ts`), and
* the async blockchain writer (`uploadToBlockchainAsync`) with its
  batch / fallback control flow.

Buffers are modelled as `List Nat` (bytes).  The external gzip
compressor and the SHA-256 hash are not code of this repository: they
enter as function parameters (`gz`, `gun`, `sha`); where a claim needs
the gzip round-trip (`gunzipSync (gzipSync b) = b`, guaranteed by zlib)
it is a hypothesis.  `Date` values are modelled as `Nat` timestamps,
`crypto.randomUUID` as an externally supplied fresh string.
-/

namespace FileDb

/-- The `ChunkEntity` from `src/types.ts`.  `data` holds the (compressed)
chunk bytes.  The TS `id` (a random UUID) is a `String`; `created_at`
is modelled as a numeric timestamp. -/
structure ChunkEntity where
  id : String
  file_id : String
  chunk_index : Nat
  data : List Nat
  original_size : Nat
  compressed_size : Nat
  checksum : String
  created_at : Nat
  expiration_block : Nat
  entity_key : Option String := none
  deriving Repr, DecidableEq

/-- The `FileMetadata` from `src/types.ts`. -/
structure FileMetadata where
  file_id : String
  original_filename : String
  content_type : String
  file_extension : String
  total_size : Nat
  chunk_count : Nat
  checksum : String
  created_at : Nat
  expiration_block : Nat
  btl_days : Nat
  entity_key : Option String := none
  owner : Option String := none
  deriving Repr, DecidableEq

/-- The `extractFileExtension` (`chunking.ts`): the lowercased suffix after
the last `'.'` when that dot sits at a strictly positive index
(`lastIndexOf('.') > 0`), else the empty string. -/
def extractFileExtension (filename : String) : String :=
  let cs := filename.toList
  match cs.reverse.indexOf? '.' with
  | none => ""
  | some revIdx =>
      let lastDot := cs.length - 1 - revIdx
      if 0 < lastDot then String.mk ((cs.drop (lastDot + 1)).map Char.toLower) else ""

/-- One step of `chunkFile`'s loop (`chunking.ts`): slice the window
`buf.take chunkSize` starting at byte offset `off`, gzip it, emit the
chunk and continue at `off + chunkSize`.  The loop consumes at least
one byte per iteration whenever `chunkSize > 0`, so running it with
`fuel = buffer length` reproduces the source loop exactly (the source
does not terminate when `CHUNK_SIZE = 0`). -/
def chunkFileAux (gz : List Nat → List Nat) (sha : List Nat → String)
    (chunkSize now : Nat) (fid : String) (exp : Nat) :
    Nat → Nat → List Nat → List ChunkEntity
  | _, _, [] => []
  | 0, _, _ :: _ => []
  | fuel + 1, off, b :: rest =>
      let raw := (b :: rest).take chunkSize
      let comp := gz raw
      { id := "", file_id := fid, chunk_index := off / chunkSize, data := comp,
        original_size := raw.length, compressed_size := comp.length,
        checksum := sha raw, created_at := now, expiration_block := exp } ::
        chunkFileAux gz sha chunkSize now fid exp fuel (off + chunkSize) ((b :: rest).drop chunkSize)

/-- The `chunkFile` (`chunking.ts`): split `fileBuffer` into
`CHUNK_SIZE`-byte windows, compress each and record per-chunk checksums
of the uncompressed slice. -/
def chunkFile (gz : List Nat → List Nat) (sha : List Nat → String)
    (chunkSize : Nat) (now : Nat) (fileBuffer : List Nat)
    (file_id : String) (expiration_block : Nat) : List ChunkEntity :=
  chunkFileAux gz sha chunkSize now file_id expiration_block fileBuffer.length 0 fileBuffer

/-- The `createMetadata` (`chunking.ts`): `chunk_count = ceil (len / CHUNK_SIZE)`
and `checksum = sha256(fileBuffer)`. -/
def createMetadata (sha : List Nat → String) (chunkSize : Nat) (now : Nat)
    (file_id original_filename content_type : String) (fileBuffer : List Nat)
    (btl_days expiration_block : Nat) : FileMetadata :=
  { file_id, original_filename, content_type,
    file_extension := extractFileExtension original_filename,
    total_size := fileBuffer.length,
    chunk_count := (fileBuffer.length + chunkSize - 1) / chunkSize,
    checksum := sha fileBuffer,
    created_at := now, expiration_block, btl_days }

/-- Stable insertion into a list sorted by `chunk_index`; helper for the
stable `Array.prototype.sort` used by `reassembleFile`. -/
def insertByIndex (c : ChunkEntity) : List ChunkEntity → List ChunkEntity
  | [] => [c]
  | d :: ds => if c.chunk_index ≤ d.chunk_index then c :: d :: ds else d :: insertByIndex c ds

/-- The stable sort by `chunk_index` performed by
`chunks.sort((a, b) => a.chunk_index - b.chunk_index)`. -/
def sortByIndex : List ChunkEntity → List ChunkEntity
  | [] => []
  | c :: cs => insertByIndex c (sortByIndex cs)

/-- The `reassembleFile` (`chunking.ts`): sort by `chunk_index`, gunzip each
chunk's bytes and concatenate. -/
def reassembleFile (gun : List Nat → List Nat) (chunks : List ChunkEntity) : List Nat :=
  ((sortByIndex chunks).map fun c => gun c.data).flatten

/-- The `validateFileIntegrity` (`chunking.ts`): recompute the hash of the
reassembled buffer and compare with the recorded checksum. -/
def validateFileIntegrity (sha : List Nat → String)
    (originalChecksum : String) (reassembledBuffer : List Nat) : Bool :=
  originalChecksum == sha reassembledBuffer

/-! ### Chunker lemmas -/

/-- Decompressing and concatenating the chunks (in emission order)
recovers the input buffer, provided the fuel covers the buffer. -/
theorem chunkFileAux_flatten (gz gun : List Nat → List Nat) (sha : List Nat → String)
    (chunkSize now : Nat) (fid : String) (exp : Nat)
    (hcs : 0 < chunkSize) (hrt : ∀ b, gun (gz b) = b) :
    ∀ fuel buf off, buf.length ≤ fuel →
      ((chunkFileAux gz sha chunkSize now fid exp fuel off buf).map fun c => gun c.data).flatten = buf := by
  intro fuel
  induction fuel with
  | zero =>
      intro buf off hlen
      have hb : buf = [] := List.eq_nil_of_length_eq_zero (Nat.le_zero.mp hlen)
      subst hb
      simp [chunkFileAux]
  | succ n ih =>
      intro buf off hlen
      match buf with
      | [] => simp [chunkFileAux]
      | b :: rest =>
          have hdrop : ((b :: rest).drop chunkSize).length ≤ n := by
            rw [List.length_drop]
            simp only [List.length_cons] at hlen ⊢
            omega
          simp only [chunkFileAux, List.map_cons, List.flatten_cons, hrt,
            ih ((b :: rest).drop chunkSize) (off + chunkSize) hdrop]
          exact List.take_append_drop chunkSize (b :: rest)

/-- Every chunk emitted from offset `off` has `chunk_index ≥ off / chunkSize`,
and the emitted indices form an ascending chain. -/
theorem chunkFileAux_sorted (gz : List Nat → List Nat) (sha : List Nat → String)
    (chunkSize now : Nat) (fid : String) (exp : Nat) (hcs : 0 < chunkSize) :
    ∀ fuel buf off,
      (∀ c ∈ chunkFileAux gz sha chunkSize now fid exp fuel off buf, off / chunkSize ≤ c.chunk_index) ∧
      List.Chain' (fun a b : ChunkEntity => a.chunk_index ≤ b.chunk_index)
        (chunkFileAux gz sha chunkSize now fid exp fuel off buf) := by
  intro fuel
  induction fuel with
  | zero =>
      intro buf off
      cases buf <;> simp [chunkFileAux]
  | succ n ih =>
      intro buf off
      match buf with
      | [] => simp [chunkFileAux]
      | b :: rest =>
          obtain ⟨ihmem, ihchain⟩ := ih ((b :: rest).drop chunkSize) (off + chunkSize)
          have hstep : off / chunkSize ≤ (off + chunkSize) / chunkSize := by
            rw [Nat.add_div_right off hcs]
            omega
          rw [show chunkFileAux gz sha chunkSize now fid exp (n + 1) off (b :: rest) =
            { id := "", file_id := fid, chunk_index := off / chunkSize,
              data := gz ((b :: rest).take chunkSize),
              original_size := ((b :: rest).take chunkSize).length,
              compressed_size := (gz ((b :: rest).take chunkSize)).length,
              checksum := sha ((b :: rest).take chunkSize), created_at := now,
              expiration_block := exp } ::
              chunkFileAux gz sha chunkSize now fid exp n (off + chunkSize)
                ((b :: rest).drop chunkSize) from rfl]
          constructor
          · intro c hc
            rcases List.mem_cons.mp hc with hc | hc
            · subst hc; exact Nat.le_refl _
            · exact Nat.le_trans hstep (ihmem c hc)
          · refine List.chain'_cons'.mpr ⟨?_, ihchain⟩
            intro d hd
            have hmem : d ∈ chunkFileAux gz sha chunkSize now fid exp n (off + chunkSize)
                ((b :: rest).drop chunkSize) :=
              List.mem_of_mem_head? hd
            exact Nat.le_trans hstep (ihmem d hmem)

/-- Insertion into a list whose head already dominates `c` puts `c` in front. -/
theorem sortByIndex_of_chain :
    ∀ l : List ChunkEntity,
      List.Chain' (fun a b : ChunkEntity => a.chunk_index ≤ b.chunk_index) l →
      sortByIndex l = l := by
  intro l
  induction l with
  | nil => intro _; rfl
  | cons c cs ih =>
      intro hchain
      have htail : List.Chain' (fun a b : ChunkEntity => a.chunk_index ≤ b.chunk_index) cs :=
        (List.chain'_cons'.mp hchain).2
      have hcs := ih htail
      show insertByIndex c (sortByIndex cs) = c :: cs
      rw [hcs]
      cases cs with
      | nil => rfl
      | cons d ds =>
          have hcd : c.chunk_index ≤ d.chunk_index :=
            (List.chain'_cons.mp hchain).1
          simp [insertByIndex, hcd]

/-- C1. For every payload buffer `P` (any `file_id` and
`expiration_block`), reassembling the chunk sequence produced by
`chunkFile` — sorting by `chunk_index`, decompressing each chunk and
concatenating — yields `P` bit-for-bit; the checksum recorded by
`createMetadata` equals `sha256 P`; and `validateFileIntegrity` of the
recorded checksum against the reassembled buffer returns `true`.
Hypotheses: a positive chunk size and the gzip round-trip. -/
theorem chunker_roundtrip (gz gun : List Nat → List Nat) (sha : List Nat → String)
    (chunkSize : Nat) (hcs : 0 < chunkSize) (hrt : ∀ b, gun (gz b) = b)
    (P : List Nat) (fid fn ct : String) (btl exp now : Nat) :
    reassembleFile gun (chunkFile gz sha chunkSize now P fid exp) = P ∧
    (createMetadata sha chunkSize now fid fn ct P btl exp).checksum = sha P ∧
    validateFileIntegrity sha (createMetadata sha chunkSize now fid fn ct P btl exp).checksum
      (reassembleFile gun (chunkFile gz sha chunkSize now P fid exp)) = true := by
  have hchain := (chunkFileAux_sorted gz sha chunkSize now fid exp hcs P.length P 0).2
  have hsort : sortByIndex (chunkFile gz sha chunkSize now P fid exp) =
      chunkFile gz sha chunkSize now P fid exp :=
    sortByIndex_of_chain _ hchain
  have hflat := chunkFileAux_flatten gz gun sha chunkSize now fid exp hcs hrt P.length P 0 (Nat.le_refl _)
  have hre : reassembleFile gun (chunkFile gz sha chunkSize now P fid exp) = P := by
    unfold reassembleFile
    rw [hsort]
    exact hflat
  refine ⟨hre, rfl, ?_⟩
  unfold validateFileIntegrity
  rw [hre]
  exact beq_self_eq_true _

/-! ### Configuration (`CONFIG` in `src/types.ts`) -/

def MAX_FILE_SIZE : Nat := 10 * 1024 * 1024

def FREE_TIER_MAX_BYTES : Nat := 500 * 1024 * 1024

def FREE_TIER_MAX_UPLOADS_PER_DAY : Nat := 50

def BLOCKS_PER_DAY : Nat := 2880

/-- The `CONFIG.ALLOWED_FILE_TYPES` (`src/types.ts`), verbatim. -/
def ALLOWED_FILE_TYPES : List String :=
  ["application/pdf", "application/msword",
   "application/vnd.openxmlformats-officedocument.wordprocessingml.document",
   "application/vnd.ms-excel",
   "application/vnd.openxmlformats-officedocument.spreadsheetml.sheet",
   "application/vnd.ms-powerpoint",
   "application/vnd.openxmlformats-officedocument.presentationml.presentation",
   "text/plain", "text/csv", "application/rtf",
   "application/zip", "application/x-rar-compressed", "application/x-7z-compressed",
   "application/x-tar", "application/gzip",
   "image/jpeg", "image/png", "image/gif", "image/webp", "image/svg+xml",
   "image/bmp", "image/tiff",
   "audio/mpeg", "audio/wav", "audio/ogg", "audio/mp4", "audio/flac",
   "video/mp4", "video/mpeg", "video/quicktime", "video/x-msvideo", "video/webm",
   "text/javascript", "text/html", "text/css", "application/json", "application/xml",
   "text/x-python", "text/x-java-source", "text/x-c", "text/x-c++",
   "application/octet-stream"]

/-! ### Content-type admission (`isValidFileType` in `upload.ts`) -/

/-- Whitespace removed by JavaScript `String.prototype.trim` (ASCII part;
MIME strings contain no other space code points). -/
def isJsSpace (c : Char) : Bool :=
  c == ' ' || c == '\t' || c == '\n' || c == '\r' || c == '\x0b' || c == '\x0c'

/-- JavaScript `trim()`: drop leading and trailing whitespace. -/
def jsTrim (s : String) : String :=
  String.mk (((s.toList.dropWhile isJsSpace).reverse.dropWhile isJsSpace).reverse)

/-- The first element of JavaScript `str.split(c)`: the characters
before the first occurrence of `c` (the whole string when `c` is absent). -/
def jsSplitFirst (c : Char) : List Char → List Char
  | [] => []
  | a :: rest => if a = c then [] else a :: jsSplitFirst c rest

/-- The `isValidFileType` (`upload.ts`):
`CONFIG.ALLOWED_FILE_TYPES.includes(contentType.split(';')[0].trim())`. -/
def isValidFileType (contentType : String) : Bool :=
  ALLOWED_FILE_TYPES.contains (jsTrim (String.mk (jsSplitFirst ';' contentType.toList)))

/-- The spec's reading of the admission rule: the substring before the
first `';'`, trimmed of surrounding whitespace (stated independently of
the code via `takeWhile`). -/
def specBaseType (contentType : String) : String :=
  jsTrim (String.mk (contentType.toList.takeWhile (· ≠ ';')))

theorem jsSplitFirst_eq_takeWhile (c : Char) :
    ∀ l : List Char, jsSplitFirst c l = l.takeWhile (· ≠ c) := by
  intro l
  induction l with
  | nil => rfl
  | cons a rest ih =>
      by_cases h : a = c
      · simp [jsSplitFirst, List.takeWhile, h]
      · simp [jsSplitFirst, List.takeWhile, h, ih]

/-- C10. Content-type admission compares only the base MIME type:
`isValidFileType` admits a content-type string exactly when the
substring before the first `';'`, trimmed of surrounding whitespace, is
a member of `ALLOWED_FILE_TYPES`; in particular
`"text/plain; charset=utf-8"` is admitted, like bare `"text/plain"`. -/
theorem isValidFileType_base_mime :
    (∀ ct : String,
        isValidFileType ct = ALLOWED_FILE_TYPES.contains (specBaseType ct)) ∧
    isValidFileType "text/plain; charset=utf-8" = true ∧
    isValidFileType "text/plain" = true := by
  refine ⟨?_, by decide, by decide⟩
  intro ct
  unfold isValidFileType specBaseType
  rw [jsSplitFirst_eq_takeWhile]

/-- Concrete hash stand-in used by witnesses (any function works: the
round-trip theorem is hash-agnostic). -/
def demoHash (l : List Nat) : String :=
  toString (l.foldl (fun a b => a * 257 + b + 1) 7)

/-- The `UploadStatus` from `src/types.ts`. -/
inductive UploadStatus where
  | uploading
  | completed
  | failed
  deriving Repr, DecidableEq

/-- The `UploadSession` from `src/types.ts`.  The `chunks_received` `Set` is
a list of indices in insertion order; dates are numeric timestamps. -/
structure UploadSession where
  file_id : String
  idempotency_key : String
  metadata : FileMetadata
  chunks_received : List Nat
  completed : Bool
  status : UploadStatus
  error : Option String := none
  chunks_uploaded_to_blockchain : Nat
  total_chunks : Nat
  started_at : Nat
  last_chunk_uploaded_at : Option Nat := none
  deriving Repr, DecidableEq

/-! ### Quota accountant (`src/services/quota.ts`, in-memory configuration)

The quota service is embedded in its in-memory configuration: the Redis
cache is unavailable (`cacheInitialized = false`) and the storage
backend is the memory store, which has no `getUserQuota` /
`updateUserQuota`, so every cache/ledger branch of the source falls
through to the in-process `Map`s.  JavaScript `Map`s become association
lists with `Map.set` semantics (replace in place, append new keys). -/

/-- The `QuotaInfo` from `src/types.ts`. -/
structure QuotaInfo where
  used_bytes : Nat
  max_bytes : Nat
  uploads_today : Nat
  max_uploads_per_day : Nat
  deriving Repr, DecidableEq

/-- The default record inserted by `getUserQuota` for an unknown user. -/
def defaultQuota : QuotaInfo :=
  { used_bytes := 0, max_bytes := FREE_TIER_MAX_BYTES,
    uploads_today := 0, max_uploads_per_day := FREE_TIER_MAX_UPLOADS_PER_DAY }

/-- The `Map.prototype.set`: replace the binding in place or append it. -/
def mapSet {κ β : Type} [BEq κ] (k : κ) (v : β) : List (κ × β) → List (κ × β)
  | [] => [(k, v)]
  | (k', v') :: rest => if k' == k then (k, v) :: rest else (k', v') :: mapSet k v rest

theorem lookup_mapSet {κ β : Type} [BEq κ] [LawfulBEq κ] (k : κ) (v : β) :
    ∀ (l : List (κ × β)) (u : κ),
      (mapSet k v l).lookup u = if u == k then some v else l.lookup u := by
  intro l
  induction l with
  | nil =>
      intro u
      by_cases h : u == k <;> simp [mapSet, List.lookup, h]
  | cons p rest ih =>
      intro u
      obtain ⟨k', v'⟩ := p
      by_cases hk : k' == k
      · have : k' = k := eq_of_beq hk
        subst this
        by_cases hu : u == k' <;> simp [mapSet, List.lookup, hu]
      · by_cases hu : u == k'
        · have : u = k' := eq_of_beq hu
          subst this
          have hnk : ¬(u == k) := by
            intro hc
            exact hk hc
          simp [mapSet, List.lookup, hk, hu, hnk]
        · simp [mapSet, List.lookup, hk, hu, ih u]

/-- The mutable state of a single `UploadService` + `QuotaService`
process, in the in-memory configuration: the session fallback `Map`
(`uploadSessions`), the quota `userUsage` `Map`, and the quota
`lastResetDate` `Map`. -/
structure ServiceState where
  sessions : List (String × UploadSession)
  userUsage : List (String × QuotaInfo)
  lastResetDate : List (String × String)
  deriving Repr

/-- The `shouldResetQuota` (`quota.ts`): record today's date for the user
and report whether a previously recorded different date was present. -/
def shouldResetQuota (today userId : String) (st : ServiceState) :
    Bool × ServiceState :=
  match st.lastResetDate.lookup userId with
  | none => (false, { st with lastResetDate := mapSet userId today st.lastResetDate })
  | some lastReset =>
      if lastReset ≠ today then
        (true, { st with lastResetDate := mapSet userId today st.lastResetDate })
      else (false, st)

/-- The `resetQuota` (`quota.ts`): zero `uploads_today` for a known user;
`used_bytes` deliberately accumulates across days. -/
def resetQuota (userId : String) (st : ServiceState) : ServiceState :=
  match st.userUsage.lookup userId with
  | none => st
  | some q =>
      { st with userUsage := mapSet userId { q with uploads_today := 0 } st.userUsage }

/-- The `getUserQuota` (`quota.ts`, memory fallback): insert the free-tier
default for an unknown user, then return the record. -/
def getUserQuotaMem (userId : String) (st : ServiceState) : QuotaInfo × ServiceState :=
  match st.userUsage.lookup userId with
  | some q => (q, st)
  | none => (defaultQuota, { st with userUsage := mapSet userId defaultQuota st.userUsage })

/-- Result of `checkQuota`.  The source messages interpolate the
counters; the embedding keeps their stable prefixes. -/
structure QuotaCheck where
  allowed : Bool
  reason : Option String := none
  deriving Repr, DecidableEq

/-- The `checkQuota` (`quota.ts`): bypass key short-circuit, daily rollover,
then the byte and per-day ceilings. -/
def checkQuota (today : String) (bypass : Bool) (userId : String) (fileSize : Nat)
    (st : ServiceState) : QuotaCheck × ServiceState :=
  if bypass then ({ allowed := true }, st)
  else
    let r1 := shouldResetQuota today userId st
    let st2 := if r1.1 then resetQuota userId r1.2 else r1.2
    let r2 := getUserQuotaMem userId st2
    if r2.1.max_bytes < r2.1.used_bytes + fileSize then
      ({ allowed := false, reason := some "Quota exceeded" }, r2.2)
    else if r2.1.max_uploads_per_day ≤ r2.1.uploads_today then
      ({ allowed := false, reason := some "Daily upload limit exceeded" }, r2.2)
    else ({ allowed := true }, r2.2)

/-- The `updateUsage` (`quota.ts`, memory configuration): add the accepted
bytes and count one upload. -/
def updateUsage (userId : String) (fileSize : Nat) (st : ServiceState) : ServiceState :=
  let q := (st.userUsage.lookup userId).getD defaultQuota
  let q' := { q with used_bytes := q.used_bytes + fileSize,
                     uploads_today := q.uploads_today + 1 }
  { st with userUsage := mapSet userId q' st.userUsage }

/-- A user's `used_bytes` as observed through the map (absent = 0). -/
def quotaUsedView (st : ServiceState) (u : String) : Nat :=
  ((st.userUsage.lookup u).getD defaultQuota).used_bytes

/-- A user's `uploads_today` as observed through the map (absent = 0). -/
def quotaUploadsView (st : ServiceState) (u : String) : Nat :=
  ((st.userUsage.lookup u).getD defaultQuota).uploads_today

/-! ### Ingestion admission (`initiateUpload` in `src/services/upload.ts`)

Configuration as in the quota section: Redis is down, so
`findExistingSession` and the session store are the in-memory fallback
`Map`, and the storage backend is the memory store
(`calculateExpirationBlock btl = currentBlock + btl * 2880`,
`src/storage/db-chain.ts`).  The fire-and-forget `updateUsage` call is
modelled as applied (with the in-memory quota it cannot fail), and the
detached `uploadToBlockchainAsync` task as a `writerScheduled` flag. -/

/-- The value returned by `initiateUpload`. -/
structure InitiateResult where
  success : Bool
  file_id : Option String := none
  error : Option String := none
  deriving Repr, DecidableEq

/-- Result + post-state + the observable side effects of one
`initiateUpload` call: whether the chunker ran and whether an async
writer task was launched. -/
structure InitiateOutcome where
  result : InitiateResult
  state : ServiceState
  chunkerCalled : Bool
  writerScheduled : Bool
  deriving Repr

/-- The `initiateUpload` (`upload.ts`).  Admission in source order: size
ceiling, content-type allowlist, quota check, idempotency lookup; only
then mint `file_id` (`freshId`, the `crypto.randomUUID()` result),
build metadata and chunks, store the session, commit quota usage and
launch the writer. -/
def initiateUpload (gz : List Nat → List Nat) (sha : List Nat → String)
    (chunkSize currentBlock now : Nat) (today : String) (bypass : Bool)
    (st : ServiceState) (fileBuffer : List Nat)
    (filename contentType idempotencyKey userId : String)
    (btlDays : Nat) (owner : Option String) (freshId : String) : InitiateOutcome :=
  if MAX_FILE_SIZE < fileBuffer.length then
    { result := { success := false, error := some "File too large" },
      state := st, chunkerCalled := false, writerScheduled := false }
  else if ¬ isValidFileType contentType then
    { result := { success := false, error := some "File type not supported" },
      state := st, chunkerCalled := false, writerScheduled := false }
  else
    let qr := checkQuota today bypass userId fileBuffer.length st
    let quotaCheck := qr.1
    let st1 := qr.2
    if ¬ quotaCheck.allowed then
      { result := { success := false, error := quotaCheck.reason },
        state := st1, chunkerCalled := false, writerScheduled := false }
    else
      match st1.sessions.lookup idempotencyKey with
      | some existingSession =>
          { result := { success := true, file_id := some existingSession.file_id },
            state := st1, chunkerCalled := false, writerScheduled := false }
      | none =>
          let expiration_block := currentBlock + btlDays * BLOCKS_PER_DAY
          let metadata0 :=
            createMetadata sha chunkSize now freshId filename contentType fileBuffer
              btlDays expiration_block
          let metadata := { metadata0 with owner := owner }
          let chunks := chunkFile gz sha chunkSize now fileBuffer freshId expiration_block
          let session : UploadSession :=
            { file_id := freshId, idempotency_key := idempotencyKey, metadata,
              chunks_received := [], completed := false, status := .uploading,
              chunks_uploaded_to_blockchain := 0, total_chunks := chunks.length,
              started_at := now }
          let st2 := { st1 with sessions := mapSet idempotencyKey session st1.sessions }
          let st3 := updateUsage userId fileBuffer.length st2
          { result := { success := true, file_id := some freshId },
            state := st3, chunkerCalled := true, writerScheduled := true }

theorem shouldResetQuota_sessions (today userId : String) (st : ServiceState) :
    ((shouldResetQuota today userId st).2).sessions = st.sessions := by
  unfold shouldResetQuota
  cases st.lastResetDate.lookup userId
  · rfl
  · dsimp only
    split <;> rfl

theorem resetQuota_sessions (userId : String) (st : ServiceState) :
    (resetQuota userId st).sessions = st.sessions := by
  unfold resetQuota
  cases st.userUsage.lookup userId <;> rfl

theorem getUserQuotaMem_sessions (userId : String) (st : ServiceState) :
    ((getUserQuotaMem userId st).2).sessions = st.sessions := by
  unfold getUserQuotaMem
  cases st.userUsage.lookup userId <;> rfl

/-- The `checkQuota` never touches the session map. -/
theorem checkQuota_sessions (today : String) (bypass : Bool) (userId : String)
    (fileSize : Nat) (st : ServiceState) :
    ((checkQuota today bypass userId fileSize st).2).sessions = st.sessions := by
  unfold checkQuota
  by_cases hb : bypass
  · simp [hb]
  · simp only [hb, if_false, Bool.false_eq_true]
    repeat' split
    all_goals
      dsimp only
      simp only [getUserQuotaMem_sessions, resetQuota_sessions, shouldResetQuota_sessions]

/-- C2. For every idempotency key `k`, a second `initiateUpload`
call with key `k` — whatever its payload, filename or content type —
that passes admission returns the `file_id` of the session already
stored under `k`, leaves the session map unchanged, does not run the
chunker and schedules no new writer work. -/
theorem initiateUpload_idempotent (gz : List Nat → List Nat) (sha : List Nat → String)
    (chunkSize currentBlock now : Nat) (today : String) (bypass : Bool)
    (st : ServiceState) (fileBuffer : List Nat)
    (filename contentType k userId : String) (btlDays : Nat)
    (owner : Option String) (freshId : String) (s : UploadSession)
    (hsession : st.sessions.lookup k = some s)
    (hsize : fileBuffer.length ≤ MAX_FILE_SIZE)
    (htype : isValidFileType contentType = true)
    (hquota : (checkQuota today bypass userId fileBuffer.length st).1.allowed = true) :
    (initiateUpload gz sha chunkSize currentBlock now today bypass st
        fileBuffer filename contentType k userId btlDays owner freshId).result =
      { success := true, file_id := some s.file_id } ∧
      (initiateUpload gz sha chunkSize currentBlock now today bypass st
        fileBuffer filename contentType k userId btlDays owner freshId).state.sessions =
        st.sessions ∧
      (initiateUpload gz sha chunkSize currentBlock now today bypass st
        fileBuffer filename contentType k userId btlDays owner freshId).chunkerCalled = false ∧
      (initiateUpload gz sha chunkSize currentBlock now today bypass st
        fileBuffer filename contentType k userId btlDays owner freshId).writerScheduled = false := by
  have hnsize : ¬ MAX_FILE_SIZE < fileBuffer.length := Nat.not_lt.mpr hsize
  have hlookup1 :
      ((checkQuota today bypass userId fileBuffer.length st).2).sessions.lookup k = some s := by
    rw [checkQuota_sessions]
    exact hsession
  unfold initiateUpload
  rw [if_neg hnsize, if_neg (fun hc => hc htype), if_neg (fun hc => hc hquota)]
  simp [hlookup1, hsession, checkQuota_sessions]

theorem getUserQuotaMem_views (userId : String) (st : ServiceState) (u : String) :
    quotaUsedView ((getUserQuotaMem userId st).2) u = quotaUsedView st u ∧
      quotaUploadsView ((getUserQuotaMem userId st).2) u = quotaUploadsView st u := by
  unfold getUserQuotaMem quotaUsedView quotaUploadsView
  cases hq : st.userUsage.lookup userId with
  | some q => exact ⟨rfl, rfl⟩
  | none =>
      dsimp only
      rw [lookup_mapSet]
      by_cases hu : u == userId
      · have : u = userId := eq_of_beq hu
        subst this
        rw [if_pos hu, hq]
        exact ⟨rfl, rfl⟩
      · rw [if_neg hu]
        exact ⟨rfl, rfl⟩

theorem shouldResetQuota_userUsage (today userId : String) (st : ServiceState) :
    ((shouldResetQuota today userId st).2).userUsage = st.userUsage := by
  unfold shouldResetQuota
  cases st.lastResetDate.lookup userId
  · rfl
  · dsimp only
    split <;> rfl

theorem quotaUsedView_congr {st' st : ServiceState} (h : st'.userUsage = st.userUsage)
    (u : String) : quotaUsedView st' u = quotaUsedView st u := by
  unfold quotaUsedView
  rw [h]

theorem quotaUploadsView_congr {st' st : ServiceState} (h : st'.userUsage = st.userUsage)
    (u : String) : quotaUploadsView st' u = quotaUploadsView st u := by
  unfold quotaUploadsView
  rw [h]

/-- The daily rollover never touches `used_bytes` (it only zeroes the
reset user's `uploads_today`). -/
theorem resetQuota_used_view (userId : String) (st : ServiceState) (u : String) :
    quotaUsedView (resetQuota userId st) u = quotaUsedView st u := by
  unfold resetQuota
  cases hq : st.userUsage.lookup userId with
  | none => simp only [hq]
  | some q =>
      simp only [hq]
      unfold quotaUsedView
      dsimp only
      rw [lookup_mapSet]
      by_cases hu : u == userId
      · have he : u = userId := eq_of_beq hu
        subst he
        rw [if_pos hu, hq]
        rfl
      · rw [if_neg hu]

/-- After the daily rollover a user's `uploads_today` view is either
unchanged (every other user, or an unknown reset target) or the reset
user's, which is 0. -/
theorem resetQuota_uploads_view (userId : String) (st : ServiceState) (u : String) :
    quotaUploadsView (resetQuota userId st) u = quotaUploadsView st u ∨
      (u = userId ∧ quotaUploadsView (resetQuota userId st) u = 0) := by
  unfold resetQuota
  cases hq : st.userUsage.lookup userId with
  | none =>
      simp only [hq]
      left
      trivial
  | some q =>
      simp only [hq]
      by_cases hu : u == userId
      · right
        have he : u = userId := eq_of_beq hu
        subst he
        refine ⟨rfl, ?_⟩
        unfold quotaUploadsView
        dsimp only
        rw [lookup_mapSet, if_pos hu]
        rfl
      · left
        unfold quotaUploadsView
        dsimp only
        rw [lookup_mapSet, if_neg hu]

/-- The post-state of `checkQuota` is either the input state (bypass)
or the state after the rollover test and the `getUserQuota` read —
identical across the allow and both deny branches. -/
theorem checkQuota_state_shape (today : String) (bypass : Bool) (userId : String)
    (fileSize : Nat) (st : ServiceState) :
    (checkQuota today bypass userId fileSize st).2 = st ∨
    (checkQuota today bypass userId fileSize st).2 =
      (getUserQuotaMem userId
        (if (shouldResetQuota today userId st).1 then
          resetQuota userId (shouldResetQuota today userId st).2
        else (shouldResetQuota today userId st).2)).2 := by
  unfold checkQuota
  by_cases hb : bypass
  · left
    simp [hb]
  · right
    simp only [hb, if_false, Bool.false_eq_true]
    repeat' split
    all_goals rfl

/-- The `checkQuota` never changes any user's `used_bytes` as observed
through the map: the rollover only zeroes `uploads_today` and the
read-through only inserts the zero default. -/
theorem checkQuota_used_view (today : String) (bypass : Bool) (userId : String)
    (fileSize : Nat) (st : ServiceState) (u : String) :
    quotaUsedView ((checkQuota today bypass userId fileSize st).2) u = quotaUsedView st u := by
  rcases checkQuota_state_shape today bypass userId fileSize st with h | h
  · rw [h]
  · rw [h, (getUserQuotaMem_views userId _ u).1]
    split
    · rw [resetQuota_used_view]
      exact quotaUsedView_congr (shouldResetQuota_userUsage today userId st) u
    · exact quotaUsedView_congr (shouldResetQuota_userUsage today userId st) u

/-- The `checkQuota` leaves every user's `uploads_today` view unchanged
except possibly the calling user's, which the daily rollover may reset
to 0. -/
theorem checkQuota_uploads_view (today : String) (bypass : Bool) (userId : String)
    (fileSize : Nat) (st : ServiceState) (u : String) :
    quotaUploadsView ((checkQuota today bypass userId fileSize st).2) u =
        quotaUploadsView st u ∨
      (u = userId ∧ quotaUploadsView ((checkQuota today bypass userId fileSize st).2) u = 0) := by
  rcases checkQuota_state_shape today bypass userId fileSize st with h | h
  · left
    rw [h]
  · rw [h, (getUserQuotaMem_views userId _ u).2]
    split
    · rcases resetQuota_uploads_view userId (shouldResetQuota today userId st).2 u with hv | hv
      · left
        rw [hv]
        exact quotaUploadsView_congr (shouldResetQuota_userUsage today userId st) u
      · right
        exact hv
    · left
      exact quotaUploadsView_congr (shouldResetQuota_userUsage today userId st) u

/-- The state on which the C8 counterexample runs: user `"u"` at the
byte ceiling with 7 uploads counted yesterday. -/
def quotaDenyState : ServiceState :=
  { sessions := [],
    userUsage := [("u", { used_bytes := FREE_TIER_MAX_BYTES,
                          max_bytes := FREE_TIER_MAX_BYTES,
                          uploads_today := 7,
                          max_uploads_per_day := FREE_TIER_MAX_UPLOADS_PER_DAY })],
    lastResetDate := [("u", "2026-10-10")] }

/-- C8 (against the claim).  A quota-denied `initiateUpload` call
that is the user's first interaction of a new calendar date does change
a quota counter: the daily rollover inside `checkQuota` resets
`uploads_today` from 7 to 0 even though the call is rejected. -/
theorem initiateUpload_admission_error_counterexample :
    (initiateUpload id demoHash 32768 1000000 0 "2026-10-11" false quotaDenyState
        [0] "a.txt" "text/plain" "key-q" "u" 7 none "fid-q").result.success = false ∧
    quotaUploadsView quotaDenyState "u" = 7 ∧
    quotaUploadsView
        (initiateUpload id demoHash 32768 1000000 0 "2026-10-11" false quotaDenyState
          [0] "a.txt" "text/plain" "key-q" "u" 7 none "fid-q").state "u" = 0 ∧
    (7 : Nat) ≠ 0 := by
  refine ⟨by decide, by decide, by decide, by decide⟩

/-- C8 (amended).  Whenever `initiateUpload` returns an admission
error (size, type, or quota denial), no session is created in the
in-memory map, no `file_id` is returned, the chunker does not run, no
writer work is scheduled, and every user's `used_bytes` is unchanged;
every user's `uploads_today` is unchanged too, except that the caller's
may have been reset to 0 by the daily rollover inside `checkQuota`
(a quota-denied call that is the caller's first interaction of a new
calendar date — the counterexample above). -/
theorem initiateUpload_admission_error_no_effect (gz : List Nat → List Nat)
    (sha : List Nat → String) (chunkSize currentBlock now : Nat) (today : String)
    (bypass : Bool) (st : ServiceState) (fileBuffer : List Nat)
    (filename contentType k userId : String) (btlDays : Nat)
    (owner : Option String) (freshId : String)
    (herr : (initiateUpload gz sha chunkSize currentBlock now today bypass st
        fileBuffer filename contentType k userId btlDays owner freshId).result.success = false) :
    (initiateUpload gz sha chunkSize currentBlock now today bypass st
        fileBuffer filename contentType k userId btlDays owner freshId).state.sessions =
      st.sessions ∧
    (initiateUpload gz sha chunkSize currentBlock now today bypass st
        fileBuffer filename contentType k userId btlDays owner freshId).result.file_id = none ∧
    (initiateUpload gz sha chunkSize currentBlock now today bypass st
        fileBuffer filename contentType k userId btlDays owner freshId).chunkerCalled = false ∧
    (initiateUpload gz sha chunkSize currentBlock now today bypass st
        fileBuffer filename contentType k userId btlDays owner freshId).writerScheduled = false ∧
    (∀ u, quotaUsedView (initiateUpload gz sha chunkSize currentBlock now today bypass st
        fileBuffer filename contentType k userId btlDays owner freshId).state u =
      quotaUsedView st u) ∧
    (∀ u, quotaUploadsView (initiateUpload gz sha chunkSize currentBlock now today bypass st
          fileBuffer filename contentType k userId btlDays owner freshId).state u =
        quotaUploadsView st u ∨
      (u = userId ∧
        quotaUploadsView (initiateUpload gz sha chunkSize currentBlock now today bypass st
          fileBuffer filename contentType k userId btlDays owner freshId).state u = 0)) := by
  by_cases h1 : MAX_FILE_SIZE < fileBuffer.length
  · unfold initiateUpload
    rw [if_pos h1]
    exact ⟨rfl, rfl, rfl, rfl, fun _ => rfl, fun _ => Or.inl rfl⟩
  · by_cases h2 : isValidFileType contentType
    · by_cases h3 : (checkQuota today bypass userId fileBuffer.length st).1.allowed
      · exfalso
        unfold initiateUpload at herr
        rw [if_neg h1, if_neg (fun hc => hc h2), if_neg (fun hc => hc h3)] at herr
        rcases hl : ((checkQuota today bypass userId fileBuffer.length st).2).sessions.lookup k with
          _ | s <;> rw [hl] at herr <;> exact Bool.noConfusion herr
      · unfold initiateUpload
        rw [if_neg h1, if_neg (fun hc => hc h2),
          if_pos (fun hc => h3 hc)]
        exact ⟨checkQuota_sessions today bypass userId fileBuffer.length st, rfl, rfl, rfl,
          fun u => checkQuota_used_view today bypass userId fileBuffer.length st u,
          fun u => checkQuota_uploads_view today bypass userId fileBuffer.length st u⟩
    · unfold initiateUpload
      rw [if_neg h1, if_pos (fun hc => h2 hc)]
      exact ⟨rfl, rfl, rfl, rfl, fun _ => rfl, fun _ => Or.inl rfl⟩

/-- Witness for `initiateUpload_admission_error_no_effect`: the
quota-denied rollover call of the counterexample; the session map and
the caller's `used_bytes` are untouched even there. -/
theorem initiateUpload_admission_error_witness :
    (initiateUpload id demoHash 32768 1000000 0 "2026-10-11" false quotaDenyState
        [0] "a.txt" "text/plain" "key-q" "u" 7 none "fid-q").state.sessions = [] ∧
    quotaUsedView
        (initiateUpload id demoHash 32768 1000000 0 "2026-10-11" false quotaDenyState
          [0] "a.txt" "text/plain" "key-q" "u" 7 none "fid-q").state "u" =
      quotaUsedView quotaDenyState "u" :=
  ⟨(initiateUpload_admission_error_no_effect id demoHash 32768 1000000 0 "2026-10-11" false
      quotaDenyState [0] "a.txt" "text/plain" "key-q" "u" 7 none "fid-q" (by decide)).1,
    (initiateUpload_admission_error_no_effect id demoHash 32768 1000000 0 "2026-10-11" false
      quotaDenyState [0] "a.txt" "text/plain" "key-q" "u" 7 none "fid-q"
      (by decide)).2.2.2.2.1 "u"⟩

/-- The `validateFileContent` (`src/middleware/validation.ts`): the only
empty-payload check in the repository.  It throws on an empty buffer
and on buffers above 10 MiB; the MIME-sniffing part never rejects.
No route or middleware ever calls this function. -/
def validateFileContent (buffer : List Nat) : Except String Unit :=
  if buffer.length = 0 then .error "File content is empty"
  else if 10 * 1024 * 1024 < buffer.length then .error "File size exceeds maximum"
  else .ok ()

/-- C5 (against the claim).  An empty payload is *not* rejected:
`initiateUpload` on a zero-length buffer succeeds, runs the chunker
(zero chunks), and creates a session with `total_chunks = 0`.  The
rejection the claim describes exists only in `validateFileContent`,
which nothing invokes. -/
theorem initiateUpload_accepts_empty :
    (initiateUpload id demoHash 32768 1000000 0 "2026-10-11" false
        ⟨[], [], []⟩ [] "a.txt" "text/plain" "key-empty" "u" 7 none "fid-empty").result =
      { success := true, file_id := some "fid-empty" } ∧
    (initiateUpload id demoHash 32768 1000000 0 "2026-10-11" false
        ⟨[], [], []⟩ [] "a.txt" "text/plain" "key-empty" "u" 7 none "fid-empty").chunkerCalled
      = true ∧
    ((initiateUpload id demoHash 32768 1000000 0 "2026-10-11" false
        ⟨[], [], []⟩ [] "a.txt" "text/plain" "key-empty" "u" 7 none "fid-empty").state.sessions.lookup
        "key-empty").map (fun s => (s.file_id, s.total_chunks)) = some ("fid-empty", 0) ∧
    validateFileContent [] = .error "File content is empty" := by
  refine ⟨?_, by decide, ?_, rfl⟩ <;> decide

/-- A one-session state used by the C2 witness. -/
def demoSession : UploadSession :=
  { file_id := "fid-0", idempotency_key := "key-0001",
    metadata := createMetadata demoHash 2 0 "fid-0" "a.txt" "text/plain" [1, 2] 7 1020160,
    chunks_received := [], completed := false, status := .uploading,
    chunks_uploaded_to_blockchain := 0, total_chunks := 1, started_at := 0 }

/-- Witness for `initiateUpload_idempotent`: a repeat call with key
`"key-0001"` against a state already holding `demoSession` under that
key returns `demoSession`'s `file_id` and changes nothing. -/
theorem initiateUpload_idempotent_witness :
    (initiateUpload id demoHash 2 1000000 0 "2026-10-11" false
        ⟨[("key-0001", demoSession)], [], []⟩ [9, 9, 9] "b.txt" "text/plain"
        "key-0001" "u1" 7 none "fid-1").result =
      { success := true, file_id := some "fid-0" } :=
  (initiateUpload_idempotent id demoHash 2 1000000 0 "2026-10-11" false
      ⟨[("key-0001", demoSession)], [], []⟩ [9, 9, 9] "b.txt" "text/plain"
      "key-0001" "u1" 7 none "fid-1" demoSession (by rfl) (by decide) (by decide)
      (by decide)).1

/-- Witness for `chunker_roundtrip`: chunk size 2, payload `[1,2,3,4,5]`,
identity compressor (which satisfies the round-trip hypothesis). -/
theorem chunker_roundtrip_witness :
    (0 : Nat) < 2 ∧
      reassembleFile id (chunkFile id demoHash 2 0 [1, 2, 3, 4, 5] "f" 9) = [1, 2, 3, 4, 5] :=
  ⟨by decide,
    (chunker_roundtrip id id demoHash 2 (by decide) (fun _ => rfl) [1, 2, 3, 4, 5] "f" "a.txt" "text/plain" 7 9 0).1⟩

/-! ### In-memory storage backend (`src/storage/db-chain.ts`)

`ArkivMemoryStorage` keeps two JavaScript `Map`s.  The chunk key
`` `${file_id}_${chunk_index}` `` is injective on (id, numeric index)
pairs, so it is modelled as the pair itself. -/

/-- The `Map.prototype.delete` (first matching binding removed). -/
def mapDelete {κ β : Type} [BEq κ] (k : κ) : List (κ × β) → List (κ × β)
  | [] => []
  | (k', v') :: rest => if k' == k then rest else (k', v') :: mapDelete k rest

/-- The state of one `ArkivMemoryStorage` instance.  The mock current
block is `1000000` at construction; it is part of the state. -/
structure MemState where
  chunks : List ((String × Nat) × ChunkEntity)
  metadata : List (String × FileMetadata)
  currentBlock : Nat
  deriving Repr

/-- The `storeChunk` (`db-chain.ts`): re-storing an existing key is a no-op
when the checksums agree and an error when they differ; a new key is
inserted. -/
def memStoreChunk (st : MemState) (chunk : ChunkEntity) : Except String MemState :=
  match st.chunks.lookup (chunk.file_id, chunk.chunk_index) with
  | some existing =>
      if existing.checksum ≠ chunk.checksum then
        .error "Chunk checksum mismatch - data corruption detected"
      else .ok st
  | none => .ok { st with chunks := mapSet (chunk.file_id, chunk.chunk_index) chunk st.chunks }

/-- The `getChunk` (`db-chain.ts`): expired chunks are deleted on read. -/
def memGetChunk (st : MemState) (fid : String) (i : Nat) :
    Option ChunkEntity × MemState :=
  match st.chunks.lookup (fid, i) with
  | none => (none, st)
  | some c =>
      if c.expiration_block ≤ st.currentBlock then
        (none, { st with chunks := mapDelete (fid, i) st.chunks })
      else (some c, st)

/-- The `getMetadata` (`db-chain.ts`): expired metadata is deleted on read. -/
def memGetMetadata (st : MemState) (fid : String) :
    Option FileMetadata × MemState :=
  match st.metadata.lookup fid with
  | none => (none, st)
  | some m =>
      if m.expiration_block ≤ st.currentBlock then
        (none, { st with metadata := mapDelete fid st.metadata })
      else (some m, st)

/-- The chunk-collection loop of `getAllChunks`: indices `i`,
`i + 1`, … (`remaining` of them); any missing chunk collapses the
result to `[]` (file incomplete). -/
def memChunksLoop (fid : String) : Nat → Nat → List ChunkEntity → MemState →
    List ChunkEntity × MemState
  | _, 0, acc, st => (acc, st)
  | i, remaining + 1, acc, st =>
      match memGetChunk st fid i with
      | (none, st') => ([], st')
      | (some c, st') => memChunksLoop fid (i + 1) remaining (acc ++ [c]) st'

/-- The `getAllChunks` (`db-chain.ts`): read the metadata, then fetch every
index `0 ≤ i < chunk_count`; return `[]` when the metadata is missing
or any chunk is missing. -/
def memGetAllChunks (st : MemState) (fid : String) : List ChunkEntity × MemState :=
  match memGetMetadata st fid with
  | (none, st') => ([], st')
  | (some m, st') => memChunksLoop fid 0 m.chunk_count [] st'

/-- The value returned by `getFile` (`upload.ts`). -/
structure GetFileResult where
  success : Bool
  buffer : Option (List Nat) := none
  error : Option String := none
  deriving Repr, DecidableEq

/-- The `getFile` (`upload.ts`) over the memory backend: metadata fetch,
chunk fetch, emptiness check, reassembly, integrity check. -/
def getFile (gun : List Nat → List Nat) (sha : List Nat → String)
    (st : MemState) (fid : String) : GetFileResult × MemState :=
  match memGetMetadata st fid with
  | (none, st1) => ({ success := false, error := some "File not found or expired" }, st1)
  | (some m, st1) =>
      let r := memGetAllChunks st1 fid
      if r.1.length = 0 then
        ({ success := false, error := some "File chunks not found or incomplete" }, r.2)
      else
        let reassembled := reassembleFile gun r.1
        if ¬ validateFileIntegrity sha m.checksum reassembled then
          ({ success := false, error := some "File integrity check failed" }, r.2)
        else ({ success := true, buffer := some reassembled }, r.2)

/-- C9. Re-storing a chunk whose `(file_id, chunk_index)` key is
already present in the memory store is a no-op that leaves the store
unchanged when the checksums agree, and fails with the
"Chunk checksum mismatch" error — storing nothing — when they differ. -/
theorem memStoreChunk_duplicate (st : MemState) (c existing : ChunkEntity)
    (h : st.chunks.lookup (c.file_id, c.chunk_index) = some existing) :
    (existing.checksum = c.checksum → memStoreChunk st c = .ok st) ∧
    (existing.checksum ≠ c.checksum →
      memStoreChunk st c = .error "Chunk checksum mismatch - data corruption detected") := by
  unfold memStoreChunk
  rw [h]
  dsimp only
  constructor
  · intro he
    rw [if_neg (fun hc => hc he)]
  · intro hne
    rw [if_pos hne]

/-- A chunk used by the memory-storage witnesses. -/
def demoChunk : ChunkEntity :=
  { id := "c0", file_id := "f", chunk_index := 0, data := [7, 7],
    original_size := 2, compressed_size := 2, checksum := "h0",
    created_at := 0, expiration_block := 2000000 }

/-- Witness for `memStoreChunk_duplicate`: a duplicate store with equal
checksum is a no-op; one with a different checksum errors. -/
theorem memStoreChunk_duplicate_witness :
    memStoreChunk ⟨[(("f", 0), demoChunk)], [], 1000000⟩ demoChunk =
      .ok ⟨[(("f", 0), demoChunk)], [], 1000000⟩ ∧
    memStoreChunk ⟨[(("f", 0), demoChunk)], [], 1000000⟩ { demoChunk with checksum := "h1" } =
      .error "Chunk checksum mismatch - data corruption detected" :=
  ⟨(memStoreChunk_duplicate ⟨[(("f", 0), demoChunk)], [], 1000000⟩ demoChunk demoChunk
      (by decide)).1 rfl,
    (memStoreChunk_duplicate ⟨[(("f", 0), demoChunk)], [], 1000000⟩
      { demoChunk with checksum := "h1" } demoChunk (by decide)).2 (by decide)⟩

theorem memGetMetadata_of_some (st : MemState) (fid : String) (m : FileMetadata)
    (h : (memGetMetadata st fid).1 = some m) :
    memGetMetadata st fid = (some m, st) := by
  unfold memGetMetadata at h ⊢
  cases hl : st.metadata.lookup fid with
  | none =>
      simp only [hl] at h
      exact Option.noConfusion h
  | some m' =>
      simp only [hl] at h ⊢
      by_cases he : m'.expiration_block ≤ st.currentBlock
      · simp only [if_pos he] at h
        exact Option.noConfusion h
      · simp only [if_neg he] at h ⊢
        obtain rfl : m' = m := Option.some.inj h
        rfl

/-- The chunk loop returns either the empty list (some chunk missing)
or exactly `acc.length + remaining` chunks. -/
theorem memChunksLoop_length (fid : String) :
    ∀ (remaining i : Nat) (acc : List ChunkEntity) (st : MemState),
      (memChunksLoop fid i remaining acc st).1 = [] ∨
      (memChunksLoop fid i remaining acc st).1.length = acc.length + remaining := by
  intro remaining
  induction remaining with
  | zero => intro i acc st; right; simp [memChunksLoop]
  | succ n ih =>
      intro i acc st
      unfold memChunksLoop
      cases hg : memGetChunk st fid i with
      | mk oc st' =>
          cases oc with
          | none => left; rfl
          | some c =>
              rcases ih (i + 1) (acc ++ [c]) st' with hl | hl
              · left; exact hl
              · right
                rw [hl]
                simp only [List.length_append, List.length_cons, List.length_nil]
                omega

/-- C3. When the metadata of a file is found but the fetched chunk
set has a length different from `metadata.chunk_count` (including any
non-zero partial set), `getFile` fails with the `FILE_INCOMPLETE`
error "File chunks not found or incomplete" — never with the
integrity-check error: over this backend a partial set collapses to
`[]`, which trips the emptiness check before reassembly. -/
theorem getFile_incomplete (gun : List Nat → List Nat) (sha : List Nat → String)
    (st : MemState) (fid : String) (m : FileMetadata)
    (hmeta : (memGetMetadata st fid).1 = some m)
    (hlen : ((memGetAllChunks ((memGetMetadata st fid).2) fid).1).length ≠ m.chunk_count) :
    (getFile gun sha st fid).1 =
      { success := false, error := some "File chunks not found or incomplete" } := by
  have hpair : memGetMetadata st fid = (some m, st) := memGetMetadata_of_some st fid m hmeta
  have hall : memGetAllChunks st fid = memChunksLoop fid 0 m.chunk_count [] st := by
    unfold memGetAllChunks
    rw [hpair]
  have hlen' : ((memGetAllChunks st fid).1).length ≠ m.chunk_count := by
    rw [hpair] at hlen
    exact hlen
  have hempty : (memGetAllChunks st fid).1 = [] := by
    rcases memChunksLoop_length fid m.chunk_count 0 [] st with hl | hl
    · rw [hall]; exact hl
    · exfalso
      apply hlen'
      rw [hall, hl]
      simp
  unfold getFile
  rw [hpair]
  dsimp only
  rw [if_pos (by rw [hempty]; rfl)]

/-- Metadata record used by the C3 witness: two chunks expected, only
chunk 0 stored. -/
def demoMeta : FileMetadata :=
  { file_id := "f", original_filename := "a.txt", content_type := "text/plain",
    file_extension := "txt", total_size := 4, chunk_count := 2, checksum := "H",
    created_at := 0, expiration_block := 2000000, btl_days := 7 }

/-- Witness for `getFile_incomplete`: a store holding `demoMeta` and
only one of its two chunks answers `getFile` with the incomplete
error. -/
theorem getFile_incomplete_witness :
    (getFile id demoHash ⟨[(("f", 0), demoChunk)], [("f", demoMeta)], 1000000⟩ "f").1 =
      { success := false, error := some "File chunks not found or incomplete" } :=
  getFile_incomplete id demoHash ⟨[(("f", 0), demoChunk)], [("f", demoMeta)], 1000000⟩
    "f" demoMeta (by decide) (by decide)

/-! ### Ledger retry wrapper (`retryBlockchainOperation`,
`src/storage/arkiv-storage.ts` 769–796)

`outcome a` tells whether the `a`-th attempt of the wrapped ledger call
succeeds.  The embedding returns the success flag (`false` = the last
error is rethrown), the number of attempts made, and the list of
backoff delays slept between attempts (in milliseconds). -/

def retryAux (outcome : Nat → Bool) (baseDelay : Nat) :
    Nat → Nat → Bool × Nat × List Nat
  | attempt, 0 => (false, attempt - 1, [])
  | attempt, remaining + 1 =>
      if outcome attempt then (true, attempt, [])
      else if remaining = 0 then (false, attempt, [])
      else
        let d := baseDelay * 2 ^ (attempt - 1)
        let r := retryAux outcome baseDelay (attempt + 1) remaining
        (r.1, r.2.1, d :: r.2.2)

/-- The `retryBlockchainOperation(operation, name, maxRetries, baseDelay)`:
up to `maxRetries` attempts; after a failed attempt `a < maxRetries`
sleep `baseDelay * 2 ^ (a - 1)` ms (no cap); rethrow after the final
attempt.  `storeBatch` / `storeBatchChunks` call it with `(5, 2000)`,
`storeChunk` / `storeMetadata` with the defaults `(3, 1000)`. -/
def retryBlockchainOperation (outcome : Nat → Bool) (maxRetries baseDelay : Nat) :
    Bool × Nat × List Nat :=
  retryAux outcome baseDelay 1 maxRetries

/-- The *capped* backoff of `uploadBatchWithRetry`
(`parallel-upload.ts`): `min(1000 * 2 ** (attempt - 1), 10000)` —
the only place a 10 s cap exists, used with at most 3 attempts. -/
def uploadBatchRetryDelay (attempt : Nat) : Nat :=
  min (1000 * 2 ^ (attempt - 1)) 10000

theorem retryAux_attempts_le (outcome : Nat → Bool) (baseDelay : Nat) :
    ∀ fuel attempt, (retryAux outcome baseDelay attempt fuel).2.1 ≤ attempt + fuel - 1 := by
  intro fuel
  induction fuel with
  | zero => intro attempt; simp [retryAux]
  | succ n ih =>
      intro attempt
      unfold retryAux
      by_cases h1 : outcome attempt
      · simp only [h1, if_true]
        omega
      · simp only [h1, if_false, Bool.false_eq_true]
        by_cases h2 : n = 0
        · simp only [h2, if_true]
          omega
        · simp only [h2, if_false]
          have := ih (attempt + 1)
          omega

/-- C6 (against the claim).  The batch-call configuration of
`retryBlockchainOperation` (5 attempts, 2 s base) sleeps
2 s, 4 s, 8 s, 16 s between attempts: the fourth delay is 16 s, so no
10-second cap is applied. -/
theorem retry_delay_cap_counterexample :
    (retryBlockchainOperation (fun _ => false) 5 2000).2.2 = [2000, 4000, 8000, 16000] ∧
    16000 ∈ (retryBlockchainOperation (fun _ => false) 5 2000).2.2 ∧
    ¬ (16000 ≤ 10000) := by
  refine ⟨by decide, by decide, by decide⟩

/-- C6 (amended).  The retry wrapper makes at most 5 attempts with
base delay 2 s for batch store calls and at most 3 attempts with base
delay 1 s for single store calls, sleeping `base * 2 ^ (attempt - 1)`
between attempts with *no* cap, and rethrows the last error after the
final attempt (all-failing runs end unsuccessfully after exactly
`maxRetries` attempts, having slept the uncapped schedule).  The
10-second cap exists only in `uploadBatchWithRetry` of the parallel
upload service, whose 3-attempt 1 s-base schedule never reaches it. -/
theorem retry_backoff_schedule :
    (∀ outcome : Nat → Bool,
        (retryBlockchainOperation outcome 5 2000).2.1 ≤ 5 ∧
        (retryBlockchainOperation outcome 3 1000).2.1 ≤ 3) ∧
    retryBlockchainOperation (fun _ => false) 5 2000 = (false, 5, [2000, 4000, 8000, 16000]) ∧
    retryBlockchainOperation (fun _ => false) 3 1000 = (false, 3, [1000, 2000]) ∧
    (∀ attempt, uploadBatchRetryDelay attempt ≤ 10000) := by
  refine ⟨?_, by decide, by decide, ?_⟩
  · intro outcome
    exact ⟨retryAux_attempts_le outcome 2000 5 1, retryAux_attempts_le outcome 1000 3 1⟩
  · intro attempt
    exact Nat.min_le_right _ _

/-! ### Async blockchain writer (`uploadToBlockchainAsync`,
ledger-mode upload service, 241–373)

The writer runs against a storage with both `storeBatch` and
`storeBatchChunks` (the ledger backend).  Each storage call pops one
outcome from an oracle list (`true` = the call succeeds; an exhausted
oracle means success).  The embedding records every value assigned to
`session.chunks_uploaded_to_blockchain` (the initial `0` included) and
the final session status.

Control flow of the source: batches of 16 in ascending order, the
first combined with the metadata entity.  A failed batch triggers the
in-catch individual loop over *all remaining* chunks (plus a metadata
store when the first batch failed) and then `break`s with
`allSuccess = false` — after which execution falls through to the
outer individual-upload loop, which restarts at chunk 0. -/

def takeOp : List Bool → Bool × List Bool
  | [] => (true, [])
  | b :: r => (b, r)

/-- Mutable writer context: remaining oracle, the current
`chunks_uploaded_to_blockchain` value, the history of values assigned
to it, and `chunks_received` in insertion order. -/
structure WriterState where
  ops : List Bool
  uploaded : Nat
  trace : List Nat
  received : List Nat
  deriving Repr

/-- An individual-upload loop over the chunk indices `rem` (the chunks
of `chunkFile` have `chunk_index` equal to their position): store chunk
`i`, then set `chunks_uploaded_to_blockchain := i + 1` and add `i` to
`chunks_received`; a failed store throws (`false`). -/
def individualLoop : List Nat → WriterState → Bool × WriterState
  | [], s => (true, s)
  | i :: rest, s =>
      let t := takeOp s.ops
      if t.1 then
        individualLoop rest
          { ops := t.2, uploaded := i + 1, trace := s.trace ++ [i + 1],
            received := s.received ++ [i] }
      else (false, { s with ops := t.2 })

/-- The `(startChunk, batch size)` pairs: `BATCH_SIZE = 16` chunks per
batch in ascending order. -/
def mkBatches (total : Nat) : List (Nat × Nat) :=
  (List.range ((total + 15) / 16)).map fun b => (b * 16, min 16 (total - b * 16))

/-- The batch loop.  On success advance `uploadedChunks` by the batch
size; on failure run the individual fallback over every remaining chunk
(and a metadata store when the failed batch was the first), then leave
with `allSuccess = false`. -/
def batchLoop (total : Nat) : List (Nat × Nat) → WriterState → Bool × WriterState
  | [], s => (true, s)
  | (start, size) :: rest, s =>
      let t := takeOp s.ops
      if t.1 then
        batchLoop total rest
          { ops := t.2, uploaded := s.uploaded + size,
            trace := s.trace ++ [s.uploaded + size],
            received := s.received ++ List.range' start size }
      else
        let r := individualLoop (List.range' start (total - start)) { s with ops := t.2 }
        if r.1 then
          if start = 0 then
            let t2 := takeOp r.2.ops
            (false, { r.2 with ops := t2.2 })
          else (false, r.2)
        else (false, r.2)

/-- Final observable result of the writer. -/
structure WriterResult where
  trace : List Nat
  status : UploadStatus
  received : List Nat
  deriving Repr

/-- The `uploadToBlockchainAsync` (ledger-mode variant): adaptive batch
upload; if it does not complete (`allSuccess = false` or an inner
throw), fall through to the outer individual-upload loop from chunk 0,
then store the metadata; any throw there marks the session `FAILED`. -/
def uploadToBlockchainAsync (ops : List Bool) (total : Nat) : WriterResult :=
  let s0 : WriterState := { ops := ops, uploaded := 0, trace := [0], received := [] }
  let r := batchLoop total (mkBatches total) s0
  if r.1 then { trace := r.2.trace, status := .completed, received := r.2.received }
  else
    let r2 := individualLoop (List.range total) r.2
    if r2.1 then
      let t := takeOp r2.2.ops
      if t.1 then { trace := r2.2.trace, status := .completed, received := r2.2.received }
      else { trace := r2.2.trace, status := .failed, received := r2.2.received }
    else { trace := r2.2.trace, status := .failed, received := r2.2.received }

/-- C4 (against the claim).  A 2-chunk session whose single batch
store fails while every individual store succeeds: the in-catch
fallback uploads both chunks (progress 0→1→2), then the writer falls
through to the outer individual loop, which restarts at chunk 0 and
sets `chunks_uploaded_to_blockchain` back to 1 before finishing — the
progress trace `[0, 1, 2, 1, 2]` is not monotonically non-decreasing,
although the session does end `COMPLETED` with progress 2. -/
theorem writer_progress_not_monotone :
    (uploadToBlockchainAsync [false] 2).trace = [0, 1, 2, 1, 2] ∧
    (uploadToBlockchainAsync [false] 2).status = .completed ∧
    ¬ List.Chain' (fun a b : Nat => a ≤ b) (uploadToBlockchainAsync [false] 2).trace := by
  refine ⟨by decide, by decide, ?_⟩
  have htr : (uploadToBlockchainAsync [false] 2).trace = [0, 1, 2, 1, 2] := by decide
  rw [htr]
  intro hc
  simp only [List.chain'_cons, List.chain'_singleton, and_true] at hc
  omega

/-! ### Ledger chunk entities (`src/storage/arkiv-storage.ts`)

The Arkiv ledger is modelled as a list of entities; the SDK's
`eq(key, value)` query filters on attribute equality.  String and
numeric attribute values share one type; `created_at` (an ISO string in
the source) is modelled as a numeric timestamp. -/

inductive AttrVal where
  | str (s : String)
  | num (n : Nat)
  deriving Repr, DecidableEq

/-- An entity as returned by the ledger: opaque key, payload bytes and
annotations. -/
structure LedgerEntity where
  key : String
  payload : List Nat
  attributes : List (String × AttrVal)
  deriving Repr, DecidableEq

/-- The `buildChunkPayload` (`arkiv-storage.ts` 606–621): the entity
written for a chunk.  Note the `chunk_index` attribute is
`chunk.chunk_index + 1`. -/
def buildChunkPayload (chunk : ChunkEntity) (expiresIn : Nat) :
    List Nat × List (String × AttrVal) :=
  (chunk.data,
    [("type", .str "chunk"),
     ("file_id", .str chunk.file_id),
     ("chunk_index", .num (chunk.chunk_index + 1)),
     ("checksum", .str chunk.checksum),
     ("created_at", .num chunk.created_at),
     ("chunk_size", .num chunk.data.length),
     ("expiration_block", .num chunk.expiration_block)])

/-- The `storeChunk` (`arkiv-storage.ts`): create one entity from
`buildChunkPayload`; the ledger mints `newKey`. -/
def ledgerStoreChunk (ledger : List LedgerEntity) (newKey : String)
    (chunk : ChunkEntity) (expiresIn : Nat) : List LedgerEntity :=
  let p := buildChunkPayload chunk expiresIn
  ledger ++ [{ key := newKey, payload := p.1, attributes := p.2 }]

/-- The SDK query predicate `eq(key, value)`. -/
def attrEq (e : LedgerEntity) (k : String) (v : AttrVal) : Bool :=
  e.attributes.lookup k == some v

/-- The `getChunk` (`arkiv-storage.ts` 188–234): query
`{type = chunk, file_id, chunk_index = i}` limited to one result and
rebuild the chunk — with `chunk_index` taken from the *argument*. -/
def ledgerGetChunk (ledger : List LedgerEntity) (fid : String) (i : Nat) :
    Option ChunkEntity :=
  match ledger.filter (fun e =>
      attrEq e "type" (.str "chunk") && attrEq e "file_id" (.str fid) &&
        attrEq e "chunk_index" (.num i)) with
  | [] => none
  | e :: _ =>
      some { id := e.key, file_id := fid, chunk_index := i, data := e.payload,
             original_size := 0, compressed_size := 0,
             checksum := match e.attributes.lookup "checksum" with
               | some (.str s) => s
               | _ => "",
             created_at := match e.attributes.lookup "created_at" with
               | some (.num n) => n
               | _ => 0,
             expiration_block := match e.attributes.lookup "expiration_block" with
               | some (.num n) => n
               | _ => 0,
             entity_key := some e.key }

/-- C7 (against the claim).  `buildChunkPayload` writes the ledger
attribute `chunk_index = chunk.chunk_index + 1`, not the zero-based
in-process index: after storing `demoChunk` (whose `chunk_index` is 0),
`getChunk(file_id, 0)` — which queries the attribute for `0` — returns
`none`, while querying index 1 finds the stored entity. -/
theorem ledger_chunk_index_off_by_one :
    ((buildChunkPayload demoChunk 100).2.lookup "chunk_index" = some (.num 1)) ∧
    ledgerGetChunk (ledgerStoreChunk [] "k0" demoChunk 100) "f" 0 = none ∧
    (ledgerGetChunk (ledgerStoreChunk [] "k0" demoChunk 100) "f" 1).isSome = true ∧
    ((ledgerGetChunk (ledgerStoreChunk [] "k0" demoChunk 100) "f" 1).map
        (fun c => c.data)) = some demoChunk.data := by
  refine ⟨by decide, by decide, by decide, by decide⟩

end FileDb
